import Mathlib

/-!
# Verification of the WebMonitor browser-shell component

A shallow embedding of `src/index.js` (the `WebMonitor` class for Electron):
the header-stripping response handler installed by `setupMain`, the tab
bookkeeping (`newTab` / `closeTab` / `switchTab`), URL classification
(`_isValidUrl` / `navigate`), accessors (`getCurrentUrl` / `getTabs`), the
`did-fail-load` event handler, and the HTML escaping used by `_renderTabs`.

Pure functions are translated as Lean functions.  DOM state touched by the
component (address-bar value, placeholder display, webview elements, status
indicator) is carried explicitly in a `WMState` record.  Where JavaScript
object aliasing matters (`getTabs`'s spread copy, `setupMain`'s spread copy of
`details.responseHeaders`) the objects live in an explicit heap, a list indexed
by reference.
-/

namespace WebMonitor

/-! ## Header stripper (`setupMain`, src/index.js lines 34-51)

Electron's `responseHeaders` is a plain object mapping header names to values;
we model it as an association list.  JavaScript objects have unique keys, and
`delete headers[h]` removes the entry with exactly that key; removing every
pair with that key coincides with this on unique-key lists and is what we
define. -/

/-- One headers object: association list from header name to value,
as stored in `details.responseHeaders`. -/
abbrev HeaderObj := List (String × String)

/-- The fixed removal list of `setupMain` (`headersToRemove`). -/
def headersToRemove : List String :=
  ["x-frame-options",
   "X-Frame-Options",
   "content-security-policy",
   "Content-Security-Policy",
   "content-security-policy-report-only",
   "Content-Security-Policy-Report-Only"]

/-- Embeds `delete headers[k]`: drop the entry whose key is exactly `k`
(case-sensitive). -/
def deleteHeader (hs : HeaderObj) (k : String) : HeaderObj :=
  hs.filter (fun p => p.1 ≠ k)

/-- Embeds `headersToRemove.forEach(h => delete headers[h])` applied to a headers
object. -/
def stripHeaders (hs : HeaderObj) : HeaderObj :=
  headersToRemove.foldl deleteHeader hs

/-- Case-sensitive lookup of a header name in a headers object. -/
def lookupHeader (hs : HeaderObj) (k : String) : Option String :=
  (hs.find? (fun p => p.1 = k)).map Prod.snd

/-- The argument the handler passes to Electron's continuation `callback`. -/
structure CallbackArg where
  responseHeaders : HeaderObj
deriving DecidableEq

/-- The intercepted-response details handed to the handler (the part the
handler reads). -/
structure ResponseDetails where
  responseHeaders : HeaderObj

/-- The handler registered by `setupMain` on
`session.defaultSession.webRequest.onHeadersReceived`, as the function from
the details it reads to the argument it hands the continuation.  It is a total
function: the continuation is invoked on every intercepted response. -/
def onHeadersReceivedHandler (details : ResponseDetails) : CallbackArg :=
  { responseHeaders := stripHeaders details.responseHeaders }

/-! ## Tab manager state (constructor, src/index.js lines 25-28, plus the DOM
fragments the methods touch: `#wm-url-input`, `#wm-placeholder`, the webview
elements in `#wm-content`, and the status indicator) -/

/-- One tab record (`{ id, url, title }`, line 83). -/
structure Tab where
  id : Nat
  url : String
  title : String
deriving DecidableEq, Repr

/-- One `<webview>` element: its numeric id (from `wm-webview-${id}`), its
`src`, and whether it carries the `active` class. -/
structure Webview where
  id : Nat
  src : String
  active : Bool
deriving DecidableEq, Repr

/-- The mutable instance fields of a `WebMonitor` together with the DOM state
its methods read and write.  `placeholderDisplay` is the placeholder's
`style.display` (`"flex"` = shown, `"none"` = hidden); `statusDotClass` is the
status dot's `className` and `statusText` the status label text. -/
structure WMState where
  tabs : List Tab
  activeTabId : Option Nat
  tabCounter : Nat
  urlInput : String
  placeholderDisplay : String
  webviews : List Webview
  statusDotClass : String
  statusText : String
deriving DecidableEq, Repr

/-- The state right after the constructor runs (before `init`): no tabs,
no active tab, counter 0; the placeholder is shown by its stylesheet default
and the address bar is empty. -/
def initialState : WMState :=
  { tabs := []
    activeTabId := none
    tabCounter := 0
    urlInput := ""
    placeholderDisplay := "flex"
    webviews := []
    statusDotClass := "wm-status-dot"
    statusText := "Ready" }

/-- Embeds `switchTab(id)` (lines 105-122): commits `activeTabId := id`, looks the tab
up, toggles the `active` class on the webviews, writes `tab?.url || ''` into
the address bar, and shows the placeholder unless the tab has a url.
(`_renderTabs` re-derives the strip markup from this state; see `renderTabHTML`
below.) -/
def switchTab (id : Nat) (s : WMState) : WMState :=
  let tab := s.tabs.find? (fun t => t.id == id)
  { s with
    activeTabId := some id
    webviews := s.webviews.map (fun wv => { wv with active := wv.id == id })
    urlInput := match tab with
      | some t => t.url
      | none => ""
    placeholderDisplay :=
      if (match tab with
          | some t => t.url
          | none => "") ≠ "" then "none" else "flex" }

/-- Embeds `newTab(url = '')` (lines 81-100): allocate `++tabCounter`, append the tab
record and a webview whose `src` is the url (left empty when no url is given),
switch to it, and return its id. -/
def newTab (url : String) (s : WMState) : WMState × Nat :=
  let id := s.tabCounter + 1
  let tab : Tab := { id := id, url := url, title := "New Tab" }
  let s1 := { s with
    tabCounter := id
    tabs := s.tabs ++ [tab]
    webviews := s.webviews ++ [{ id := id, src := url, active := false }] }
  (switchTab id s1, id)

/-- Embeds `closeTab(id)` (lines 127-148): no-op when no tab has the id; otherwise
remove the webview element and splice the tab out; if the collection became
empty, clear active state, empty the address bar and show the placeholder;
else if the closed tab was active, switch to the tab at
`min(index, tabs.length - 1)` of the post-splice collection. -/
def closeTab (id : Nat) (s : WMState) : WMState :=
  match s.tabs.findIdx? (fun t => t.id == id) with
  | none => s
  | some index =>
    let s1 := { s with
      webviews := s.webviews.eraseP (fun wv => wv.id == id)
      tabs := s.tabs.eraseIdx index }
    if s1.tabs.length = 0 then
      { s1 with activeTabId := none, urlInput := "", placeholderDisplay := "flex" }
    else if s.activeTabId == some id then
      let newIndex := min index (s1.tabs.length - 1)
      match s1.tabs.get? newIndex with
      | some t => switchTab t.id s1
      | none => s1
    else s1

/-- Embeds `getCurrentUrl()` (lines 215-218): `this.tabs.find(t => t.id ===
this.activeTabId)?.url || ''`.  A `null` active id matches no numeric tab id. -/
def getCurrentUrl (s : WMState) : String :=
  match s.activeTabId with
  | none => ""
  | some aid =>
    match s.tabs.find? (fun t => t.id == aid) with
    | some t => t.url
    | none => ""

/-! ## URL classification (`_isValidUrl`, lines 153-158)

The two JavaScript regexes are embedded as regular expressions over `Char` and
decided by Brzozowski derivatives.  Both patterns are `^...$`-anchored, so
`.test` is a full-string match. -/

/-- Regular expressions over characters; `pred` is a character class given by
its membership test. -/
inductive RE where
  | emp : RE
  | eps : RE
  | pred : (Char → Bool) → RE
  | alt : RE → RE → RE
  | cat : RE → RE → RE
  | star : RE → RE

/-- Does the expression accept the empty string? -/
def RE.nullable : RE → Bool
  | .emp => false
  | .eps => true
  | .pred _ => false
  | .alt a b => a.nullable || b.nullable
  | .cat a b => a.nullable && b.nullable
  | .star _ => true

/-- Alternation, collapsing the empty language. -/
def RE.mkAlt : RE → RE → RE
  | .emp, b => b
  | a, .emp => a
  | a, b => .alt a b

/-- Concatenation, collapsing the empty language and the empty string. -/
def RE.mkCat : RE → RE → RE
  | .emp, _ => .emp
  | _, .emp => .emp
  | .eps, b => b
  | a, .eps => a
  | a, b => .cat a b

/-- Brzozowski derivative with respect to one character. -/
def RE.deriv (c : Char) : RE → RE
  | .emp => .emp
  | .eps => .emp
  | .pred p => if p c then .eps else .emp
  | .alt a b => mkAlt (a.deriv c) (b.deriv c)
  | .cat a b =>
    if a.nullable then mkAlt (mkCat (a.deriv c) b) (b.deriv c)
    else mkCat (a.deriv c) b
  | .star a => mkCat (a.deriv c) (.star a)

/-- Match a character list by iterated derivatives. -/
def RE.matchList : RE → List Char → Bool
  | r, [] => r.nullable
  | r, c :: cs => (r.deriv c).matchList cs

/-- Full-string match of an anchored regex, i.e. `pattern.test(input)` for a
`^...$` pattern. -/
def RE.matchStr (r : RE) (s : String) : Bool :=
  r.matchList s.data

/-- A single literal character. -/
def RE.ch (c : Char) : RE := .pred (fun d => d == c)

/-- A literal string. -/
def RE.str (s : String) : RE :=
  s.data.foldr (fun c r => .cat (RE.ch c) r) .eps

/-- Optional: `r?`. -/
def RE.opt (r : RE) : RE := .alt .eps r

/-- Repetition: `r+`. -/
def RE.plus (r : RE) : RE := .cat r (.star r)

/-- JavaScript `.` without the `s` flag: any character except a line
terminator (U+000A, U+000D, U+2028, U+2029). -/
def dotRE : RE :=
  .pred (fun c =>
    !(c == '\n' || c == '\r' || c.toNat == 0x2028 || c.toNat == 0x2029))

/-- Class `[a-zA-Z0-9-]`. -/
def labelCharRE : RE := .pred (fun c => c.isAlphanum || c == '-')

/-- Class `[a-zA-Z]`. -/
def alphaRE : RE := .pred Char.isAlpha

/-- Class `\d`. -/
def digitRE : RE := .pred Char.isDigit

/-- Fragment `(https?:\/\/)?`. -/
def schemeRE : RE :=
  RE.opt (.cat (RE.str "http") (.cat (RE.opt (RE.ch 's')) (RE.str "://")))

/-- Fragment `(\/.*)?`. -/
def pathRE : RE := RE.opt (.cat (RE.ch '/') (.star dotRE))

/-- Embeds `urlPattern` (line 155):
`^(https?:\/\/)?([a-zA-Z0-9-]+\.)+[a-zA-Z]{2,}(\/.*)?$`. -/
def urlPattern : RE :=
  .cat schemeRE
    (.cat (RE.plus (.cat (RE.plus labelCharRE) (RE.ch '.')))
      (.cat (.cat alphaRE (RE.plus alphaRE)) pathRE))

/-- Embeds `localhostPattern` (line 156):
`^(https?:\/\/)?(localhost|127\.0\.0\.1)(:\d+)?(\/.*)?$`. -/
def localhostPattern : RE :=
  .cat schemeRE
    (.cat (.alt (RE.str "localhost") (RE.str "127.0.0.1"))
      (.cat (RE.opt (.cat (RE.ch ':') (RE.plus digitRE))) pathRE))

/-- Embeds `_isValidUrl(input)` (lines 153-158). -/
def isValidUrl (input : String) : Bool :=
  urlPattern.matchStr input || localhostPattern.matchStr input

/-! ## `encodeURIComponent` (ECMA-262): characters outside
`[A-Za-z0-9-_.!~*'()]` are replaced by the uppercase-hex percent encoding of
their UTF-8 bytes. -/

/-- Uppercase hex digit for `n < 16`. -/
def hexDigitChar (n : Nat) : Char :=
  if n < 10 then Char.ofNat (48 + n) else Char.ofNat (55 + n)

/-- Encoding `%XY` of one byte. -/
def percentEncodeByte (b : Nat) : List Char :=
  ['%', hexDigitChar (b / 16), hexDigitChar (b % 16)]

/-- The UTF-8 bytes of a Unicode scalar value. -/
def utf8Bytes (n : Nat) : List Nat :=
  if n < 0x80 then [n]
  else if n < 0x800 then [0xC0 + n / 0x40, 0x80 + n % 0x40]
  else if n < 0x10000 then
    [0xE0 + n / 0x1000, 0x80 + (n / 0x40) % 0x40, 0x80 + n % 0x40]
  else
    [0xF0 + n / 0x40000, 0x80 + (n / 0x1000) % 0x40,
     0x80 + (n / 0x40) % 0x40, 0x80 + n % 0x40]

/-- Characters `encodeURIComponent` leaves unescaped. -/
def uriUnescaped (c : Char) : Bool :=
  c.isAlphanum || c == '-' || c == '_' || c == '.' || c == '!' || c == '~' ||
    c == '*' || c == Char.ofNat 39 || c == '(' || c == ')'

/-- Embeds `encodeURIComponent(s)`. -/
def encodeURIComponent (s : String) : String :=
  ⟨s.data.flatMap (fun c =>
    if uriUnescaped c then [c] else (utf8Bytes c.toNat).flatMap percentEncodeByte)⟩

/-! ## `navigate` (lines 163-186) -/

/-- Is the first list an initial segment of the second? -/
def listPrefixOf : List Char → List Char → Bool
  | [], _ => true
  | _ :: _, [] => false
  | c :: cs, d :: ds => c == d && listPrefixOf cs ds

/-- Embeds the test that `url.match(/^https?:\/\//)` is non-null: the input starts with `http://`
or `https://`. -/
def hasHttpScheme (s : String) : Bool :=
  listPrefixOf "http://".data s.data || listPrefixOf "https://".data s.data

/-- The url rewriting in `navigate` (lines 166-171): a non-URL becomes a
Google search query for the percent-encoded input; a URL without scheme gets
`https://` prepended. -/
def resolveNavUrl (url : String) : String :=
  if !isValidUrl url then
    "https://www.google.com/search?q=" ++ encodeURIComponent url
  else if !hasHttpScheme url then
    "https://" ++ url
  else url

/-- Mutate the first tab with the given id (`tab.url = url` after a
successful `find`). -/
def updateTabUrl : List Tab → Nat → String → List Tab
  | [], _, _ => []
  | t :: ts, aid, u =>
    if t.id == aid then { t with url := u } :: ts
    else t :: updateTabUrl ts aid u

/-- Set the `src` of the webview element `wm-webview-${aid}` if it exists. -/
def updateWebviewSrc : List Webview → Nat → String → List Webview
  | [], _, _ => []
  | w :: ws, aid, u =>
    if w.id == aid then { w with src := u } :: ws
    else w :: updateWebviewSrc ws aid u

/-- Embeds `navigate(url)` (lines 163-186): early return on falsy input; classify and
rewrite the input; then either open a new tab (no active tab) or update the
active tab's url and webview `src`; finally hide the placeholder. -/
def navigate (url : String) (s : WMState) : WMState :=
  if url = "" then s
  else
    let u := resolveNavUrl url
    let s1 :=
      match s.activeTabId with
      | none => (newTab u s).1
      | some aid =>
        if s.tabs.any (fun t => t.id == aid) then
          { s with
            tabs := updateTabUrl s.tabs aid u
            webviews := updateWebviewSrc s.webviews aid u }
        else s
    { s1 with placeholderDisplay := "none" }

/-! ## Status indicator and the `did-fail-load` handler
(`_setStatus` lines 262-272, `_attachWebviewEvents` lines 239-244) -/

/-- Embeds `_setStatus(type, text)`: reset the dot's class list to `wm-status-dot`,
add `loading` or `error` for those types, and set the label text. -/
def setStatus (ty text : String) (s : WMState) : WMState :=
  { s with
    statusDotClass :=
      if ty = "loading" then "wm-status-dot loading"
      else if ty = "error" then "wm-status-dot error"
      else "wm-status-dot"
    statusText := text }

/-- The `did-fail-load` listener (lines 239-244): for any error code other
than `-3` (Electron's `ERR_ABORTED`, the navigation-superseded signal) set the
error status and report whether `onError` is invoked (it is exactly when the
callback is configured); for `-3` do nothing.  The returned `Bool` is `true`
iff `this.options.onError` is called. -/
def handleDidFailLoad (onErrorConfigured : Bool) (errorCode : Int)
    (errorDescription : String) (s : WMState) : WMState × Bool :=
  if errorCode ≠ -3 then
    (setStatus "error" ("Error: " ++ errorDescription) s, onErrorConfigured)
  else (s, false)

/-! ## Tab-strip rendering and HTML escaping
(`_renderTabs` lines 274-283, `_escapeHtml` lines 302-306)

`_escapeHtml` assigns the title to a text node and reads back `innerHTML`;
per the HTML fragment-serialization algorithm this replaces `&` with `&amp;`,
`<` with `&lt;`, `>` with `&gt;` and U+00A0 with `&nbsp;`, and nothing else. -/

/-- Serialization of one text-node character. -/
def escapeHtmlChar (c : Char) : List Char :=
  if c = '&' then ['&', 'a', 'm', 'p', ';']
  else if c = '<' then ['&', 'l', 't', ';']
  else if c = '>' then ['&', 'g', 't', ';']
  else if c = Char.ofNat 0xA0 then ['&', 'n', 'b', 's', 'p', ';']
  else [c]

/-- Serialization of a text node's characters. -/
def escapeHtmlList : List Char → List Char
  | [] => []
  | c :: cs => escapeHtmlChar c ++ escapeHtmlList cs

/-- Embeds `_escapeHtml(text)`: `div.textContent = text; return div.innerHTML`. -/
def escapeHtml (s : String) : String :=
  ⟨escapeHtmlList s.data⟩

/-- How an HTML parser turns escaped text back into character data: the four
character references the serializer emits decode to their characters;
everything else is literal. -/
def decodeHtmlList : List Char → List Char
  | [] => []
  | c :: r =>
    if c = '&' then
      if r.take 4 = ['a', 'm', 'p', ';'] then '&' :: decodeHtmlList (r.drop 4)
      else if r.take 3 = ['l', 't', ';'] then '<' :: decodeHtmlList (r.drop 3)
      else if r.take 3 = ['g', 't', ';'] then '>' :: decodeHtmlList (r.drop 3)
      else if r.take 5 = ['n', 'b', 's', 'p', ';'] then
        Char.ofNat 0xA0 :: decodeHtmlList (r.drop 5)
      else c :: decodeHtmlList r
    else c :: decodeHtmlList r
termination_by l => l.length
decreasing_by
  all_goals simp [List.length_drop]
  all_goals omega

/-- The markup `_renderTabs` produces for one tab (the template literal at
lines 278-283), with the title inserted through `_escapeHtml`. -/
def renderTabHTML (activeTabId : Option Nat) (tab : Tab) : String :=
  "\n      <div class=\"wm-tab " ++
    (if some tab.id == activeTabId then "active" else "") ++
    "\" data-tab-id=\"" ++ toString tab.id ++ "\">\n        " ++
    "<span class=\"wm-tab-title\">" ++ escapeHtml tab.title ++ "</span>\n        " ++
    "<button class=\"wm-tab-close\" data-close-id=\"" ++ toString tab.id ++
    "\">&times;</button>\n      </div>\n    "

/-! ## Aliasing model for `getTabs` (lines 223-225) and the `setupMain`
handler's copy (lines 36-50)

JavaScript arrays and objects are references into a heap.  We model a heap of
objects of type `α` as a `List α` addressed by index; allocation appends. -/

/-- Read the object at reference `r` (default for a dangling reference). -/
def hRead (h : List α) (r : Nat) (d : α) : α := h.getD r d

/-- Overwrite the object at reference `r` (no-op on a dangling reference). -/
def hWrite (h : List α) (r : Nat) (x : α) : List α := h.set r x

/-- Allocate a fresh object, returning the extended heap and its reference. -/
def hAlloc (h : List α) (x : α) : List α × Nat := (h ++ [x], h.length)

/-- The heap a shell's arrays and tab records live in: `arrs` are array
objects (lists of tab-record references), `tabRecs` the tab records. -/
structure JSHeap where
  arrs : List (List Nat)
  tabRecs : List Tab
deriving DecidableEq, Repr

/-- Dereference an array of tab references into the tab records it denotes. -/
def derefTabs (h : JSHeap) (arrRef : Nat) : List Tab :=
  (hRead h.arrs arrRef []).map (fun r => hRead h.tabRecs r ⟨0, "", ""⟩)

/-- Embeds `getTabs()` (lines 223-225): `[...this.tabs]` allocates a fresh array
object holding the same tab-record references and returns it. -/
def getTabsH (h : JSHeap) (tabsArrRef : Nat) : JSHeap × Nat :=
  let (arrs1, r) := hAlloc h.arrs (hRead h.arrs tabsArrRef [])
  ({ h with arrs := arrs1 }, r)

/-- Embeds `getCurrentUrl()` over the heap model: find the active id among the tab
records the internal array references. -/
def getCurrentUrlH (h : JSHeap) (tabsArrRef : Nat) (activeTabId : Option Nat) :
    String :=
  match activeTabId with
  | none => ""
  | some aid =>
    match (derefTabs h tabsArrRef).find? (fun t => t.id == aid) with
    | some t => t.url
    | none => ""

/-- The `setupMain` handler over a heap of headers objects (lines 36-50):
`{ ...details.responseHeaders }` allocates a fresh object with the same
entries; the six deletions then mutate only that copy, which is what the
continuation receives. -/
def setupMainHandlerH (heap : List HeaderObj) (detailsRef : Nat) :
    List HeaderObj × Nat :=
  let (heap1, copyRef) := hAlloc heap (hRead heap detailsRef [])
  let heap2 := headersToRemove.foldl
    (fun hp k => hWrite hp copyRef (deleteHeader (hRead hp copyRef []) k)) heap1
  (heap2, copyRef)

/-! ## Traces of `newTab` / `closeTab` calls (for the id-allocation and
length invariants) -/

/-- One call in a `newTab` / `closeTab` sequence. -/
inductive Op where
  | newtab : String → Op
  | close : Nat → Op
deriving DecidableEq, Repr

/-- A trace's running data: the shell state, the ids `newTab` returned in call
order, the number of `newTab` calls, and the number of `closeTab` calls that
actually removed a tab (`findIndex` hit). -/
structure TraceResult where
  state : WMState
  newIds : List Nat
  opened : Nat
  closedOk : Nat
deriving Repr

/-- Apply one call to the running trace data. -/
def stepOp (tr : TraceResult) : Op → TraceResult
  | .newtab u =>
    let r := newTab u tr.state
    { state := r.1
      newIds := tr.newIds ++ [r.2]
      opened := tr.opened + 1
      closedOk := tr.closedOk }
  | .close id =>
    { tr with
      state := closeTab id tr.state
      closedOk :=
        if (tr.state.tabs.findIdx? (fun t => t.id == id)).isSome
        then tr.closedOk + 1 else tr.closedOk }

/-- Run a call sequence from the freshly constructed shell. -/
def runOps (ops : List Op) : TraceResult :=
  ops.foldl stepOp
    { state := initialState, newIds := [], opened := 0, closedOk := 0 }

/-! ## Supporting lemmas -/

/-- Folding the six deletions over a headers object filters out exactly the
keys on the removal list. -/
theorem foldl_deleteHeader_eq_filter (ks : List String) (hs : HeaderObj) :
    ks.foldl deleteHeader hs = hs.filter (fun p => !(ks.contains p.1)) := by
  induction ks generalizing hs with
  | nil => simp
  | cons k ks ih =>
    rw [List.foldl_cons, ih, deleteHeader, List.filter_filter]
    congr 1
    funext p
    by_cases h : p.1 = k <;> simp [h, List.contains_cons]

/-- Looking up a key the filter predicate rejects yields nothing. -/
theorem lookupHeader_filter_rejected (q : String × String → Bool)
    (hs : HeaderObj) (k : String) (hq : ∀ v, q (k, v) = false) :
    lookupHeader (hs.filter q) k = none := by
  induction hs with
  | nil => rfl
  | cons p t ih =>
    by_cases hk : p.1 = k
    · have : q p = false := by
        have := hq p.2
        rwa [show (k, p.2) = p by rw [← hk]] at this
      simp [List.filter_cons, this, ih]
    · by_cases hqp : q p = true
      · simp [List.filter_cons, hqp, lookupHeader, List.find?_cons, hk] at ih ⊢
        exact ih
      · simp at hqp
        simp [List.filter_cons, hqp, ih]

/-- Looking up a key the filter predicate accepts is unchanged by the
filter. -/
theorem lookupHeader_filter_accepted (q : String × String → Bool)
    (hs : HeaderObj) (k : String) (hq : ∀ v, q (k, v) = true) :
    lookupHeader (hs.filter q) k = lookupHeader hs k := by
  induction hs with
  | nil => rfl
  | cons p t ih =>
    by_cases hk : p.1 = k
    · have : q p = true := by
        have := hq p.2
        rwa [show (k, p.2) = p by rw [← hk]] at this
      simp [List.filter_cons, this, lookupHeader, List.find?_cons, hk]
    · by_cases hqp : q p = true
      · simp [List.filter_cons, hqp, lookupHeader, List.find?_cons, hk] at ih ⊢
        exact ih
      · simp at hqp
        simp [List.filter_cons, hqp, lookupHeader, List.find?_cons, hk] at ih ⊢
        exact ih

/-- Reading another reference after a heap write is unchanged. -/
theorem hRead_hWrite_ne (h : List α) {i j : Nat} (x d : α) (hij : i ≠ j) :
    hRead (hWrite h i x) j d = hRead h j d := by
  simp [hRead, hWrite, List.getD_eq_getElem?_getD, List.getElem?_set_ne hij]

/-- Reading a written reference yields the written object. -/
theorem hRead_hWrite_eq (h : List α) (i : Nat) (x d : α) (hi : i < h.length) :
    hRead (hWrite h i x) i d = x := by
  simp [hRead, hWrite, List.getD_eq_getElem?_getD, List.getElem?_set_self, hi]

/-- Allocation does not disturb existing references. -/
theorem hRead_append_lt (h : List α) (x d : α) {r : Nat} (hr : r < h.length) :
    hRead (h ++ [x]) r d = hRead h r d := by
  simp [hRead, List.getD_eq_getElem?_getD, List.getElem?_append_left hr]

/-- Reading a freshly allocated reference yields the allocated object. -/
theorem hRead_append_len (h : List α) (x d : α) :
    hRead (h ++ [x]) h.length d = x := by
  simp [hRead, List.getD_eq_getElem?_getD]

/-- A heap write preserves the heap's extent. -/
theorem hWrite_length (h : List α) (i : Nat) (x : α) :
    (hWrite h i x).length = h.length := by
  simp [hWrite]

/-- Folding the per-key read-delete-write steps of the `setupMain` handler
over the heap touches only the copy's reference, on which it performs the
pure `deleteHeader` fold. -/
theorem foldl_writeDelete_spec (ks : List String) (hp : List HeaderObj)
    (cr : Nat) (hcr : cr < hp.length) :
    (∀ r d, r ≠ cr →
      hRead (ks.foldl (fun h k => hWrite h cr (deleteHeader (hRead h cr []) k)) hp) r d
        = hRead hp r d) ∧
    hRead (ks.foldl (fun h k => hWrite h cr (deleteHeader (hRead h cr []) k)) hp) cr []
      = ks.foldl deleteHeader (hRead hp cr []) ∧
    (ks.foldl (fun h k => hWrite h cr (deleteHeader (hRead h cr []) k)) hp).length
      = hp.length := by
  induction ks generalizing hp with
  | nil => exact ⟨fun _ _ _ => rfl, rfl, rfl⟩
  | cons k ks ih =>
    have hlen : (hWrite hp cr (deleteHeader (hRead hp cr []) k)).length
        = hp.length := hWrite_length hp cr _
    have ih' := ih (hWrite hp cr (deleteHeader (hRead hp cr []) k))
      (by rw [hlen]; exact hcr)
    refine ⟨?_, ?_, ?_⟩
    · intro r d hr
      rw [List.foldl_cons, ih'.1 r d hr,
        hRead_hWrite_ne hp _ d (fun h => hr h.symm)]
    · rw [List.foldl_cons, List.foldl_cons, ih'.2.1,
        hRead_hWrite_eq hp cr _ [] hcr]
    · rw [List.foldl_cons, ih'.2.2, hlen]

/-! ## Claim theorems -/

/-- C1: for every intercepted response, the handler registered by `setupMain`
removes exactly the six header names `x-frame-options`, `X-Frame-Options`,
`content-security-policy`, `Content-Security-Policy`,
`content-security-policy-report-only`,
`Content-Security-Policy-Report-Only` (case-sensitive exact match) when
present, leaves every other header key and value unchanged (the survivors keep
their order and values), and always invokes the continuation callback with the
resulting header set. -/
theorem setupMain_strips_exactly_the_six (hs : HeaderObj) :
    (∀ k, k ∈ headersToRemove → lookupHeader (stripHeaders hs) k = none) ∧
    (∀ k, k ∉ headersToRemove →
      lookupHeader (stripHeaders hs) k = lookupHeader hs k) ∧
    stripHeaders hs = hs.filter (fun p => !(headersToRemove.contains p.1)) ∧
    onHeadersReceivedHandler { responseHeaders := hs } =
      { responseHeaders := stripHeaders hs } := by
  have hfilter : stripHeaders hs =
      hs.filter (fun p => !(headersToRemove.contains p.1)) :=
    foldl_deleteHeader_eq_filter headersToRemove hs
  refine ⟨?_, ?_, hfilter, rfl⟩
  · intro k hk
    rw [hfilter]
    exact lookupHeader_filter_rejected _ hs k (fun v => by
      simp [List.contains, List.elem_iff]
      exact hk)
  · intro k hk
    rw [hfilter]
    exact lookupHeader_filter_accepted _ hs k (fun v => by
      simp [List.contains, List.elem_iff]
      exact hk)

/-- Witness for C1 on a concrete response: a response carrying all six
removable names and a caching header keeps the caching header (with its
value) and loses `X-Frame-Options`. -/
theorem setupMain_strips_exactly_the_six_witness :
    lookupHeader
      (stripHeaders
        [("x-frame-options", "DENY"), ("X-Frame-Options", "SAMEORIGIN"),
         ("content-security-policy", "default-src 'none'"),
         ("Content-Security-Policy", "default-src 'self'"),
         ("content-security-policy-report-only", "default-src *"),
         ("Content-Security-Policy-Report-Only", "default-src https:"),
         ("cache-control", "max-age=60")]) "X-Frame-Options" = none ∧
    lookupHeader
      (stripHeaders
        [("x-frame-options", "DENY"), ("X-Frame-Options", "SAMEORIGIN"),
         ("content-security-policy", "default-src 'none'"),
         ("Content-Security-Policy", "default-src 'self'"),
         ("content-security-policy-report-only", "default-src *"),
         ("Content-Security-Policy-Report-Only", "default-src https:"),
         ("cache-control", "max-age=60")]) "cache-control" =
      some "max-age=60" := by
  constructor
  · exact (setupMain_strips_exactly_the_six _).1 "X-Frame-Options" (by decide)
  · rw [(setupMain_strips_exactly_the_six
      [("x-frame-options", "DENY"), ("X-Frame-Options", "SAMEORIGIN"),
       ("content-security-policy", "default-src 'none'"),
       ("Content-Security-Policy", "default-src 'self'"),
       ("content-security-policy-report-only", "default-src *"),
       ("Content-Security-Policy-Report-Only", "default-src https:"),
       ("cache-control", "max-age=60")]).2.1 "cache-control" (by decide)]
    rfl

/-- C10: the response-interception handler installed by `setupMain` never
mutates the incoming details object: it deletes header names only from a
fresh shallow copy of `details.responseHeaders` (a reference distinct from
the original) and hands that copy to the continuation, so the original
headers object holds the same entries after the handler runs as before. -/
theorem setupMain_handler_preserves_details (heap : List HeaderObj)
    (detailsRef : Nat) (h : detailsRef < heap.length) :
    hRead (setupMainHandlerH heap detailsRef).1 detailsRef [] =
      hRead heap detailsRef [] ∧
    (setupMainHandlerH heap detailsRef).2 ≠ detailsRef ∧
    hRead (setupMainHandlerH heap detailsRef).1
        (setupMainHandlerH heap detailsRef).2 [] =
      stripHeaders (hRead heap detailsRef []) := by
  have hlen : heap.length < (heap ++ [hRead heap detailsRef []]).length := by
    simp
  have spec := foldl_writeDelete_spec headersToRemove
    (heap ++ [hRead heap detailsRef []]) heap.length hlen
  have e1 : (setupMainHandlerH heap detailsRef).1 =
      headersToRemove.foldl
        (fun hp k => hWrite hp heap.length (deleteHeader (hRead hp heap.length []) k))
        (heap ++ [hRead heap detailsRef []]) := rfl
  have e2 : (setupMainHandlerH heap detailsRef).2 = heap.length := rfl
  refine ⟨?_, ?_, ?_⟩
  · rw [e1, spec.1 detailsRef [] (Nat.ne_of_lt h),
      hRead_append_lt heap _ [] h]
  · rw [e2]
    exact Nat.ne_of_gt h
  · rw [e1, e2, spec.2.1, hRead_append_len]
    rfl

/-- Witness for C10: on a concrete heap holding one response's headers, the
handler leaves the original object intact and the continuation's copy has the
frame-options header deleted. -/
theorem setupMain_handler_preserves_details_witness :
    hRead (setupMainHandlerH
        [[("X-Frame-Options", "DENY"), ("cache-control", "max-age=60")]] 0).1
        0 [] =
      [("X-Frame-Options", "DENY"), ("cache-control", "max-age=60")] ∧
    hRead (setupMainHandlerH
        [[("X-Frame-Options", "DENY"), ("cache-control", "max-age=60")]] 0).1
        (setupMainHandlerH
          [[("X-Frame-Options", "DENY"), ("cache-control", "max-age=60")]] 0).2
        [] =
      [("cache-control", "max-age=60")] := by
  have h := setupMain_handler_preserves_details
    [[("X-Frame-Options", "DENY"), ("cache-control", "max-age=60")]] 0
    (by decide)
  exact ⟨h.1.trans (by decide), h.2.2.trans (by decide)⟩

/-- C2: `navigate` classifies its input: empty/falsy input is a complete
no-op (no tab created, nothing mutated); input matching neither the
domain-with-TLD pattern nor the localhost/loopback pattern is rewritten to a
search-engine query URL carrying the percent-encoded input (so
`"hello world"` yields a URL containing `hello%20world`); input matching one
of those patterns without an `http(s)://` scheme gets `https://` prepended
(`"openai.com"` resolves to `"https://openai.com"`, `"localhost:3000"` to
`"https://localhost:3000"`, preserving the port, not a search query).  With
no active tab, the resolved URL is the url of the tab `navigate` opens. -/
theorem navigate_classifies_input (s : WMState) (input : String) :
    navigate "" s = s ∧
    (isValidUrl input = false →
      resolveNavUrl input =
        "https://www.google.com/search?q=" ++ encodeURIComponent input) ∧
    (isValidUrl input = true → hasHttpScheme input = false →
      resolveNavUrl input = "https://" ++ input) ∧
    (input ≠ "" → s.activeTabId = none →
      (navigate input s).tabs.map Tab.url =
        s.tabs.map Tab.url ++ [resolveNavUrl input]) ∧
    isValidUrl "openai.com" = true ∧
    resolveNavUrl "openai.com" = "https://openai.com" ∧
    isValidUrl "hello world" = false ∧
    resolveNavUrl "hello world" =
      "https://www.google.com/search?q=hello%20world" ∧
    encodeURIComponent "hello world" = "hello%20world" ∧
    isValidUrl "localhost:3000" = true ∧
    resolveNavUrl "localhost:3000" = "https://localhost:3000" := by
  refine ⟨rfl, ?_, ?_, ?_, by decide, by decide, by decide, by decide,
    by decide, by decide, by decide⟩
  · intro h
    simp [resolveNavUrl, h]
  · intro h1 h2
    simp [resolveNavUrl, h1, h2]
  · intro h1 h2
    simp only [navigate, if_neg h1, h2, newTab, switchTab]
    simp

/-- Witness for C2: on the freshly constructed shell, `"hello world"` is
classified as a search (with `%20` for the space) and navigating to
`"openai.com"` opens one tab whose url is `https://openai.com`. -/
theorem navigate_classifies_input_witness :
    resolveNavUrl "hello world" =
      "https://www.google.com/search?q=hello%20world" ∧
    (navigate "openai.com" initialState).tabs.map Tab.url =
      ["https://openai.com"] := by
  refine ⟨(navigate_classifies_input initialState "hello world").2.1
    (by decide), ?_⟩
  exact ((navigate_classifies_input initialState "openai.com").2.2.2.1
    (by decide) rfl).trans (by decide)

/-- C3: closing the active tab when at least one other tab remains activates
the tab at index `min(closedIndex, count-1)` of the post-removal collection,
and exactly one tab carries the new active id afterwards. -/
theorem closeTab_activates_min_rule (s : WMState) (id : Nat) (i : Nat)
    (hnd : (s.tabs.map Tab.id).Nodup)
    (hidx : s.tabs.findIdx? (fun t => t.id == id) = some i)
    (hact : s.activeTabId = some id)
    (hlen : 1 ≤ (s.tabs.eraseIdx i).length) :
    ∃ t : Tab,
      (s.tabs.eraseIdx i).get? (min i ((s.tabs.eraseIdx i).length - 1)) =
        some t ∧
      (closeTab id s).activeTabId = some t.id ∧
      (closeTab id s).tabs = s.tabs.eraseIdx i ∧
      ((closeTab id s).tabs.filter (fun tb => tb.id == t.id)).length = 1 := by
  have hmin : min i ((s.tabs.eraseIdx i).length - 1) <
      (s.tabs.eraseIdx i).length := by omega
  obtain ⟨t, hget⟩ : ∃ t, (s.tabs.eraseIdx i).get?
      (min i ((s.tabs.eraseIdx i).length - 1)) = some t := by
    rw [List.get?_eq_getElem?, List.getElem?_eq_getElem hmin]
    exact ⟨_, rfl⟩
  have hmem : t ∈ s.tabs.eraseIdx i := by
    have := List.get?_mem hget
    exact this
  have hnd' : ((s.tabs.eraseIdx i).map Tab.id).Nodup :=
    hnd.sublist ((s.tabs.eraseIdx_sublist i).map Tab.id)
  have hclose : closeTab id s =
      switchTab t.id
        { s with
          webviews := s.webviews.eraseP (fun wv => wv.id == id)
          tabs := s.tabs.eraseIdx i } := by
    rw [closeTab, hidx]
    simp only
    rw [if_neg (by omega), if_pos (by rw [hact]; simp), hget]
  refine ⟨t, hget, ?_, ?_, ?_⟩
  · rw [hclose, switchTab]
  · rw [hclose, switchTab]
  · rw [hclose]
    have hcount : ((s.tabs.eraseIdx i).map Tab.id).count t.id = 1 :=
      List.count_eq_one_of_mem hnd' (List.mem_map_of_mem Tab.id hmem)
    calc ((switchTab t.id
          { s with
            webviews := s.webviews.eraseP (fun wv => wv.id == id)
            tabs := s.tabs.eraseIdx i }).tabs.filter
            (fun tb => tb.id == t.id)).length
        = ((s.tabs.eraseIdx i).filter (fun tb => tb.id == t.id)).length := by
          rw [switchTab]
      _ = ((s.tabs.eraseIdx i).map Tab.id).count t.id := by
          rw [List.count, List.countP_map, ← List.countP_eq_length_filter]
          rfl
      _ = 1 := hcount

/-- A shell holding tabs `[A, B, C]` with `B` active. -/
def shellABCactiveB : WMState :=
  { initialState with
    tabs := [⟨1, "a", "A"⟩, ⟨2, "b", "B"⟩, ⟨3, "c", "C"⟩]
    activeTabId := some 2 }

/-- A shell holding tabs `[A, B, C]` with `C` active. -/
def shellABCactiveC : WMState :=
  { initialState with
    tabs := [⟨1, "a", "A"⟩, ⟨2, "b", "B"⟩, ⟨3, "c", "C"⟩]
    activeTabId := some 3 }

/-- Witness for C3: with tabs `[A,B,C]` and `B` active, closing `B` activates
`C`; with `C` active, closing `C` activates `B`. -/
theorem closeTab_activates_min_rule_witness :
    (closeTab 2 shellABCactiveB).activeTabId = some 3 ∧
    (closeTab 3 shellABCactiveC).activeTabId = some 2 := by
  constructor
  · obtain ⟨t, hget, hact, -, -⟩ := closeTab_activates_min_rule
      shellABCactiveB 2 1 (by decide) (by decide) rfl (by decide)
    have h2 : (shellABCactiveB.tabs.eraseIdx 1).get?
        (min 1 ((shellABCactiveB.tabs.eraseIdx 1).length - 1)) =
        some ⟨3, "c", "C"⟩ := by decide
    rw [hact, Option.some_inj.mp (hget.symm.trans h2)]
  · obtain ⟨t, hget, hact, -, -⟩ := closeTab_activates_min_rule
      shellABCactiveC 3 2 (by decide) (by decide) rfl (by decide)
    have h2 : (shellABCactiveC.tabs.eraseIdx 2).get?
        (min 2 ((shellABCactiveC.tabs.eraseIdx 2).length - 1)) =
        some ⟨2, "b", "B"⟩ := by decide
    rw [hact, Option.some_inj.mp (hget.symm.trans h2)]

/-- Lemma: `switchTab` only touches `activeTabId`, the webview classes and the
toolbar fields: the tab collection is untouched. -/
theorem switchTab_tabs_eq (id : Nat) (s : WMState) :
    (switchTab id s).tabs = s.tabs := rfl

/-- Lemma: `switchTab` does not touch the id counter. -/
theorem switchTab_tabCounter_eq (id : Nat) (s : WMState) :
    (switchTab id s).tabCounter = s.tabCounter := rfl

/-- Lemma: `newTab` appends the freshly allocated record. -/
theorem newTab_state_tabs (u : String) (s : WMState) :
    (newTab u s).1.tabs =
      s.tabs ++ [{ id := s.tabCounter + 1, url := u, title := "New Tab" }] :=
  rfl

/-- Lemma: `newTab` bumps the counter by one. -/
theorem newTab_state_tabCounter (u : String) (s : WMState) :
    (newTab u s).1.tabCounter = s.tabCounter + 1 := rfl

/-- Lemma: `newTab` returns the bumped counter. -/
theorem newTab_ret (u : String) (s : WMState) :
    (newTab u s).2 = s.tabCounter + 1 := rfl

/-- After `closeTab`, the collection is the spliced collection on a
`findIndex` hit and is untouched on a miss; the counter never changes. -/
theorem closeTab_tabs_eq (id : Nat) (s : WMState) :
    (closeTab id s).tabs =
      (match s.tabs.findIdx? (fun t => t.id == id) with
        | none => s.tabs
        | some i => s.tabs.eraseIdx i) ∧
    (closeTab id s).tabCounter = s.tabCounter := by
  rw [closeTab]
  cases h : s.tabs.findIdx? (fun t => t.id == id) with
  | none => exact ⟨rfl, rfl⟩
  | some i =>
    simp only
    split
    · exact ⟨rfl, rfl⟩
    · split
      · split
        · exact ⟨rfl, rfl⟩
        · exact ⟨rfl, rfl⟩
      · exact ⟨rfl, rfl⟩

/-- The invariant maintained along every `newTab`/`closeTab` trace: every tab
id is bounded by the counter, ids are strictly increasing along the strip
(hence pairwise distinct), the ids handed out are strictly increasing and
bounded by the counter, and the collection length balances opens against
successful closes. -/
structure TraceInv (tr : TraceResult) : Prop where
  id_ub : ∀ t ∈ tr.state.tabs, t.id ≤ tr.state.tabCounter
  ids_sorted : (tr.state.tabs.map Tab.id).Pairwise (· < ·)
  new_sorted : tr.newIds.Pairwise (· < ·)
  new_ub : ∀ n ∈ tr.newIds, n ≤ tr.state.tabCounter
  len_eq : tr.state.tabs.length + tr.closedOk = tr.opened

/-- The freshly constructed shell satisfies the trace invariant. -/
theorem traceInv_init :
    TraceInv { state := initialState, newIds := [], opened := 0,
               closedOk := 0 } := by
  refine ⟨?_, ?_, ?_, ?_, rfl⟩ <;> simp [initialState]

/-- Each `newTab` or `closeTab` call preserves the trace invariant. -/
theorem traceInv_step (tr : TraceResult) (op : Op) (h : TraceInv tr) :
    TraceInv (stepOp tr op) := by
  cases op with
  | newtab u =>
    refine ⟨?_, ?_, ?_, ?_, ?_⟩
    · intro t ht
      simp only [stepOp, newTab_state_tabs, newTab_state_tabCounter] at *
      rcases List.mem_append.mp ht with hmem | hmem
      · exact Nat.le_succ_of_le (h.id_ub t hmem)
      · simp at hmem
        simp [hmem]
    · simp only [stepOp, newTab_state_tabs]
      rw [List.map_append, List.pairwise_append]
      refine ⟨h.ids_sorted, by simp, ?_⟩
      intro x hx y hy
      simp at hy
      rcases List.mem_map.mp hx with ⟨t, ht, rfl⟩
      have := h.id_ub t ht
      omega
    · simp only [stepOp, newTab_ret]
      rw [List.pairwise_append]
      refine ⟨h.new_sorted, by simp, ?_⟩
      intro x hx y hy
      simp at hy
      have := h.new_ub x hx
      omega
    · intro n hn
      simp only [stepOp, newTab_ret] at hn
      simp only [stepOp, newTab_state_tabCounter]
      rcases List.mem_append.mp hn with hmem | hmem
      · exact Nat.le_succ_of_le (h.new_ub n hmem)
      · simp at hmem
        omega
    · simp only [stepOp, newTab_state_tabs]
      rw [List.length_append]
      have := h.len_eq
      simp
      omega
  | close id =>
    have htabs := (closeTab_tabs_eq id tr.state).1
    have hcnt := (closeTab_tabs_eq id tr.state).2
    cases hf : tr.state.tabs.findIdx? (fun t => t.id == id) with
    | none =>
      rw [hf] at htabs
      refine ⟨?_, ?_, ?_, ?_, ?_⟩
      · intro t ht
        simp only [stepOp] at *
        rw [htabs] at ht
        rw [hcnt]
        exact h.id_ub t ht
      · simp only [stepOp]
        rw [htabs]
        exact h.ids_sorted
      · exact h.new_sorted
      · intro n hn
        simp only [stepOp] at *
        rw [hcnt]
        exact h.new_ub n hn
      · simp only [stepOp]
        rw [htabs, hf]
        simp
        exact h.len_eq
    | some i =>
      rw [hf] at htabs
      have hsub := List.eraseIdx_sublist tr.state.tabs i
      have hi : i < tr.state.tabs.length :=
        (List.findIdx?_eq_some_iff_findIdx_eq.mp hf).1
      refine ⟨?_, ?_, ?_, ?_, ?_⟩
      · intro t ht
        simp only [stepOp] at *
        rw [htabs] at ht
        rw [hcnt]
        exact h.id_ub t (hsub.mem ht)
      · simp only [stepOp]
        rw [htabs]
        exact h.ids_sorted.sublist (hsub.map Tab.id)
      · exact h.new_sorted
      · intro n hn
        simp only [stepOp] at *
        rw [hcnt]
        exact h.new_ub n hn
      · simp only [stepOp]
        rw [htabs, hf]
        simp
        rw [List.length_eraseIdx_of_lt hi]
        have := h.len_eq
        omega

/-- The trace invariant is preserved along any fold of calls. -/
theorem traceInv_foldl (ops : List Op) (tr0 : TraceResult)
    (h0 : TraceInv tr0) : TraceInv (ops.foldl stepOp tr0) := by
  induction ops generalizing tr0 with
  | nil => exact h0
  | cons op ops ih =>
    rw [List.foldl_cons]
    exact ih (stepOp tr0 op) (traceInv_step tr0 op h0)

/-- The trace invariant holds after every call sequence. -/
theorem traceInv_runOps (ops : List Op) : TraceInv (runOps ops) :=
  traceInv_foldl ops _ traceInv_init

/-- C4: over every sequence of `newTab`/`closeTab` calls on one shell, the ids
`newTab` returns are strictly increasing (hence never reused, even after the
tab bearing an id is closed), the ids in the collection are pairwise distinct
at all times, and the collection's length equals tabs opened minus tabs
successfully closed. -/
theorem tab_ids_strictly_increasing_never_reused (ops : List Op) :
    (runOps ops).newIds.Pairwise (· < ·) ∧
    (runOps ops).newIds.Nodup ∧
    ((runOps ops).state.tabs.map Tab.id).Nodup ∧
    (runOps ops).state.tabs.length + (runOps ops).closedOk =
      (runOps ops).opened ∧
    (runOps ops).state.tabs.length =
      (runOps ops).opened - (runOps ops).closedOk := by
  have h := traceInv_runOps ops
  refine ⟨h.new_sorted, ?_, ?_, h.len_eq, ?_⟩
  · exact h.new_sorted.imp Nat.ne_of_lt
  · exact h.ids_sorted.imp Nat.ne_of_lt
  · have := h.len_eq
    omega

/-- A shell with a single tab showing `https://a.com`, its url in the address
bar and the placeholder hidden. -/
def shellOneTabA : WMState :=
  { initialState with
    tabs := [⟨1, "https://a.com", "A"⟩]
    activeTabId := some 1
    urlInput := "https://a.com"
    placeholderDisplay := "none"
    webviews := [⟨1, "https://a.com", true⟩] }

/-- Counterexample to C5: `switchTab` with an id matching no tab does apply
tab-specific UI updates — on a shell showing `https://a.com` it clears the
address bar and shows the empty-state placeholder, both changed from their
values before the call. -/
theorem switchTab_unknown_id_mutates_ui :
    (switchTab 99 shellOneTabA).urlInput ≠ shellOneTabA.urlInput ∧
    (switchTab 99 shellOneTabA).placeholderDisplay ≠
      shellOneTabA.placeholderDisplay ∧
    (switchTab 99 shellOneTabA).urlInput = "" ∧
    (switchTab 99 shellOneTabA).placeholderDisplay = "flex" := by
  decide

/-- C5 (amended): for every id matching no tab, `switchTab(id)` still commits
the active id, and it updates the UI as for a tab with no url: the address bar
is cleared (`tab?.url || ''` with a missed lookup) and the empty-state
placeholder is shown; the tab collection itself is untouched. -/
theorem switchTab_unknown_id_amended (s : WMState) (id : Nat)
    (h : s.tabs.find? (fun t => t.id == id) = none) :
    (switchTab id s).activeTabId = some id ∧
    (switchTab id s).urlInput = "" ∧
    (switchTab id s).placeholderDisplay = "flex" ∧
    (switchTab id s).tabs = s.tabs := by
  refine ⟨rfl, ?_, ?_, rfl⟩ <;> simp [switchTab, h]

/-- Witness for the amended C5 on the one-tab shell and the unknown id 99. -/
theorem switchTab_unknown_id_amended_witness :
    (switchTab 99 shellOneTabA).activeTabId = some 99 ∧
    (switchTab 99 shellOneTabA).urlInput = "" ∧
    (switchTab 99 shellOneTabA).placeholderDisplay = "flex" ∧
    (switchTab 99 shellOneTabA).tabs = shellOneTabA.tabs :=
  switchTab_unknown_id_amended shellOneTabA 99 (by decide)

/-- C7: a `did-fail-load` event with Electron's navigation-superseded code
`-3` neither invokes `onError` nor touches the status indicator; any other
error code sets the error status carrying the description and invokes
`onError` exactly when the callback is configured. -/
theorem didFailLoad_filters_superseded (onErrorConfigured : Bool)
    (code : Int) (desc : String) (s : WMState) (h : code ≠ -3) :
    handleDidFailLoad onErrorConfigured (-3) desc s = (s, false) ∧
    handleDidFailLoad onErrorConfigured code desc s =
      (setStatus "error" ("Error: " ++ desc) s, onErrorConfigured) ∧
    (setStatus "error" ("Error: " ++ desc) s).statusDotClass =
      "wm-status-dot error" ∧
    (setStatus "error" ("Error: " ++ desc) s).statusText =
      "Error: " ++ desc := by
  refine ⟨by simp [handleDidFailLoad], by simp [handleDidFailLoad, h],
    by simp [setStatus], by simp [setStatus]⟩

/-- Witness for C7: a DNS failure (code `-105`) on the fresh shell sets the
error status and reports the configured callback as invoked, while `-3` is
swallowed. -/
theorem didFailLoad_filters_superseded_witness :
    handleDidFailLoad true (-3) "net::ERR_ABORTED" initialState =
      (initialState, false) ∧
    handleDidFailLoad true (-105) "net::ERR_NAME_NOT_RESOLVED" initialState =
      (setStatus "error" ("Error: " ++ "net::ERR_NAME_NOT_RESOLVED")
        initialState, true) := by
  have h := didFailLoad_filters_superseded true (-105)
    "net::ERR_NAME_NOT_RESOLVED" initialState (by decide)
  exact ⟨h.1, h.2.1⟩

/-- A shell whose only tab shows `https://a.com`. -/
def shellLastTab : WMState :=
  { initialState with
    tabs := [⟨7, "https://a.com", "A"⟩]
    activeTabId := some 7
    urlInput := "https://a.com"
    placeholderDisplay := "none"
    webviews := [⟨7, "https://a.com", true⟩] }

/-- C8: closing the last remaining tab clears the active state (no tab is
active, `getCurrentUrl` returns the empty string), empties the address bar,
and restores the empty-state placeholder. -/
theorem closeTab_last_clears_state (s : WMState) (t : Tab)
    (h : s.tabs = [t]) :
    (closeTab t.id s).activeTabId = none ∧
    getCurrentUrl (closeTab t.id s) = "" ∧
    (closeTab t.id s).urlInput = "" ∧
    (closeTab t.id s).placeholderDisplay = "flex" ∧
    (closeTab t.id s).tabs = [] := by
  have hidx : s.tabs.findIdx? (fun tb => tb.id == t.id) = some 0 := by
    rw [h]
    simp
  have hclose : closeTab t.id s =
      { s with
        webviews := s.webviews.eraseP (fun wv => wv.id == t.id)
        tabs := s.tabs.eraseIdx 0
        activeTabId := none
        urlInput := ""
        placeholderDisplay := "flex" } := by
    rw [closeTab, hidx]
    simp only
    rw [if_pos (by rw [h]; rfl)]
  rw [hclose]
  refine ⟨rfl, ?_, rfl, rfl, by rw [h]; rfl⟩
  rfl

/-- Witness for C8 on a concrete one-tab shell. -/
theorem closeTab_last_clears_state_witness :
    (closeTab 7 shellLastTab).activeTabId = none ∧
    getCurrentUrl (closeTab 7 shellLastTab) = "" ∧
    (closeTab 7 shellLastTab).urlInput = "" ∧
    (closeTab 7 shellLastTab).placeholderDisplay = "flex" ∧
    (closeTab 7 shellLastTab).tabs = [] :=
  closeTab_last_clears_state shellLastTab ⟨7, "https://a.com", "A"⟩ rfl

/-- Serializing a text node yields no markup delimiter: no `<` or `>`
survives escaping. -/
theorem escapeHtmlList_no_angle (l : List Char) :
    ∀ c ∈ escapeHtmlList l, c ≠ '<' ∧ c ≠ '>' := by
  induction l with
  | nil =>
    intro c hc
    simp [escapeHtmlList] at hc
  | cons a as ih =>
    intro c hc
    rw [escapeHtmlList] at hc
    rcases List.mem_append.mp hc with hmem | hmem
    · by_cases h1 : a = '&'
      · subst h1
        simp [escapeHtmlChar] at hmem
        refine ⟨?_, ?_⟩ <;> rcases hmem with rfl | rfl | rfl | rfl | rfl <;>
          decide
      · by_cases h2 : a = '<'
        · subst h2
          simp [escapeHtmlChar] at hmem
          refine ⟨?_, ?_⟩ <;> rcases hmem with rfl | rfl | rfl | rfl <;> decide
        · by_cases h3 : a = '>'
          · subst h3
            simp [escapeHtmlChar] at hmem
            refine ⟨?_, ?_⟩ <;> rcases hmem with rfl | rfl | rfl | rfl <;>
              decide
          · by_cases h4 : a = Char.ofNat 0xA0
            · subst h4
              simp [escapeHtmlChar] at hmem
              refine ⟨?_, ?_⟩ <;>
                rcases hmem with rfl | rfl | rfl | rfl | rfl | rfl <;> decide
            · simp [escapeHtmlChar, h1, h2, h3, h4] at hmem
              subst hmem
              exact ⟨h2, h3⟩
    · exact ih c hmem

/-- Escaping is lossless: an HTML parser decodes the serialized text back to
the original characters. -/
theorem decodeHtmlList_escapeHtmlList (l : List Char) :
    decodeHtmlList (escapeHtmlList l) = l := by
  induction l with
  | nil => simp [escapeHtmlList, decodeHtmlList]
  | cons c cs ih =>
    rw [escapeHtmlList]
    by_cases h1 : c = '&'
    · subst h1
      simp [escapeHtmlChar, decodeHtmlList, ih]
    · by_cases h2 : c = '<'
      · subst h2
        simp [escapeHtmlChar, decodeHtmlList, ih]
      · by_cases h3 : c = '>'
        · subst h3
          simp [escapeHtmlChar, decodeHtmlList, ih]
        · by_cases h4 : c = Char.ofNat 0xA0
          · subst h4
            simp [escapeHtmlChar, decodeHtmlList, ih]
          · simp [escapeHtmlChar, h1, h2, h3, h4, decodeHtmlList, ih]

/-- C9: the tab strip inserts every tab title through `_escapeHtml`: the
rendered fragment contains the escaped title (between the literal span tags),
the escaped title contains no `<` or `>` — so it can open no tag and is never
interpreted as markup — and decoding the escaped text recovers the original
title verbatim, so it displays as literal text. -/
theorem renderTabs_escapes_title (tab : Tab) (activeTabId : Option Nat) :
    (∀ c ∈ (escapeHtml tab.title).data, c ≠ '<' ∧ c ≠ '>') ∧
    decodeHtmlList (escapeHtml tab.title).data = tab.title.data ∧
    renderTabHTML activeTabId tab =
      ("\n      <div class=\"wm-tab " ++
        (if some tab.id == activeTabId then "active" else "") ++
        "\" data-tab-id=\"" ++ toString tab.id ++ "\">\n        " ++
        "<span class=\"wm-tab-title\">") ++
      escapeHtml tab.title ++
      ("</span>\n        " ++
        "<button class=\"wm-tab-close\" data-close-id=\"" ++ toString tab.id ++
        "\">&times;</button>\n      </div>\n    ") := by
  refine ⟨fun c hc => escapeHtmlList_no_angle tab.title.data c hc,
    decodeHtmlList_escapeHtmlList tab.title.data, ?_⟩
  simp [renderTabHTML, String.append_assoc]

/-- Witness for C9 at the markup-bearing title `<b>`: it renders escaped as
`&lt;b&gt;` and decodes back to `<b>`. -/
theorem renderTabs_escapes_title_witness :
    escapeHtml "<b>" = "&lt;b&gt;" ∧
    decodeHtmlList (escapeHtml "<b>").data = "<b>".data := by
  refine ⟨by decide, ?_⟩
  exact (renderTabs_escapes_title ⟨1, "", "<b>"⟩ none).2.1

/-- A heap whose internal tabs array (reference 0) holds one tab record
(reference 0) showing `https://a.com`. -/
def oneTabHeap : JSHeap :=
  { arrs := [[0]], tabRecs := [⟨1, "https://a.com", "A"⟩] }

/-- Counterexample to C6: `[...this.tabs]` is a shallow copy.  Reading a
tab-record reference out of the array `getTabs` returned and overwriting that
record changes the shell's internal state: `getCurrentUrl` afterwards reports
the caller's value, not the original one. -/
theorem getTabs_record_mutation_observed :
    getCurrentUrlH
        { (getTabsH oneTabHeap 0).1 with
          tabRecs := hWrite (getTabsH oneTabHeap 0).1.tabRecs
            (hRead (hRead (getTabsH oneTabHeap 0).1.arrs
              (getTabsH oneTabHeap 0).2 []) 0 0)
            ⟨1, "https://evil.example", "A"⟩ } 0 (some 1) ≠
      getCurrentUrlH oneTabHeap 0 (some 1) ∧
    getCurrentUrlH oneTabHeap 0 (some 1) = "https://a.com" ∧
    getCurrentUrlH
        { (getTabsH oneTabHeap 0).1 with
          tabRecs := hWrite (getTabsH oneTabHeap 0).1.tabRecs
            (hRead (hRead (getTabsH oneTabHeap 0).1.arrs
              (getTabsH oneTabHeap 0).2 []) 0 0)
            ⟨1, "https://evil.example", "A"⟩ } 0 (some 1) =
      "https://evil.example" := by
  decide

/-- C6 (amended): `getTabs` returns a fresh array object — distinct from the
internal one, so caller mutations of the returned list structure (overwriting
the returned array with any contents) leave the internal collection and
`getCurrentUrl` unchanged — but it is a shallow copy: the returned array
holds exactly the internal tab-record references, so the records themselves
are shared (and mutating one through the returned array is visible inside,
as the counterexample shows). -/
theorem getTabs_is_shallow_copy (h : JSHeap) (tabsArrRef : Nat)
    (aid : Option Nat) (newContents : List Nat)
    (hlt : tabsArrRef < h.arrs.length) :
    (getTabsH h tabsArrRef).2 ≠ tabsArrRef ∧
    hRead (getTabsH h tabsArrRef).1.arrs (getTabsH h tabsArrRef).2 [] =
      hRead h.arrs tabsArrRef [] ∧
    derefTabs (getTabsH h tabsArrRef).1 tabsArrRef = derefTabs h tabsArrRef ∧
    derefTabs
        { (getTabsH h tabsArrRef).1 with
          arrs := hWrite (getTabsH h tabsArrRef).1.arrs
            (getTabsH h tabsArrRef).2 newContents } tabsArrRef =
      derefTabs h tabsArrRef ∧
    getCurrentUrlH
        { (getTabsH h tabsArrRef).1 with
          arrs := hWrite (getTabsH h tabsArrRef).1.arrs
            (getTabsH h tabsArrRef).2 newContents } tabsArrRef aid =
      getCurrentUrlH h tabsArrRef aid := by
  have hret : (getTabsH h tabsArrRef).2 = h.arrs.length := rfl
  have harrs : (getTabsH h tabsArrRef).1.arrs =
      h.arrs ++ [hRead h.arrs tabsArrRef []] := rfl
  have hrecs : (getTabsH h tabsArrRef).1.tabRecs = h.tabRecs := rfl
  have hcopy : hRead (getTabsH h tabsArrRef).1.arrs
      (getTabsH h tabsArrRef).2 [] = hRead h.arrs tabsArrRef [] := by
    rw [hret, harrs, hRead_append_len]
  have hmut : hRead (hWrite (getTabsH h tabsArrRef).1.arrs
      (getTabsH h tabsArrRef).2 newContents) tabsArrRef [] =
      hRead h.arrs tabsArrRef [] := by
    rw [hret,
      hRead_hWrite_ne _ newContents [] (Nat.ne_of_lt hlt).symm,
      harrs, hRead_append_lt h.arrs _ [] hlt]
  have hderef : derefTabs
      { (getTabsH h tabsArrRef).1 with
        arrs := hWrite (getTabsH h tabsArrRef).1.arrs
          (getTabsH h tabsArrRef).2 newContents } tabsArrRef =
      derefTabs h tabsArrRef := by
    rw [derefTabs, derefTabs]
    simp only [hrecs, hmut]
  refine ⟨?_, hcopy, ?_, hderef, ?_⟩
  · rw [hret]
    exact Nat.ne_of_gt hlt
  · rw [derefTabs, derefTabs, hrecs, harrs,
      hRead_append_lt h.arrs _ [] hlt]
  · cases aid with
    | none => rfl
    | some a => simp only [getCurrentUrlH, hderef]

/-- Witness for the amended C6 on the concrete one-tab heap: the copy is a
fresh reference with the same element references, and clobbering the copy
leaves `getCurrentUrl` at `https://a.com`. -/
theorem getTabs_is_shallow_copy_witness :
    (getTabsH oneTabHeap 0).2 ≠ 0 ∧
    hRead (getTabsH oneTabHeap 0).1.arrs (getTabsH oneTabHeap 0).2 [] =
      hRead oneTabHeap.arrs 0 [] ∧
    getCurrentUrlH
        { (getTabsH oneTabHeap 0).1 with
          arrs := hWrite (getTabsH oneTabHeap 0).1.arrs
            (getTabsH oneTabHeap 0).2 [] } 0 (some 1) =
      getCurrentUrlH oneTabHeap 0 (some 1) := by
  have h := getTabs_is_shallow_copy oneTabHeap 0 (some 1) [] (by decide)
  exact ⟨h.1, h.2.1, h.2.2.2.2⟩

end WebMonitor
